import Mathlib

/-!
Verification of the reconciliation/push-hook components of the rbtools
Mercurial hook repository, as a shallow embedding in Lean 4.

The embedding covers:
* the ticket-reference matcher of `rbtools/hooks/common.py`
  (`find_ticket_refs`, and the shared trigger/join/id pattern also used by
  `linkify_ticket_refs`), modelled as a backtracking matcher that follows
  Python `re` semantics (ordered alternation, greedy quantifiers, leftmost
  match, `findall` scanning);
* the old push-hook orchestrator of `rbtools/hooks/mercurial.py`
  (`approved_by_others`, `configbool`, `find_review_request`,
  `update_and_publish`, `push_review_hook_base`);
* the newer orchestrator of `contrib/tools/mercurial_push.py`
  (`is_approved`, `publish_maybe`, `push_review_hook_base`), whose missing
  collaborators (`find_review_requests`, `exact_match`, `update_draft`,
  `join_descriptions`, `DELIMITER` -- imported from a module version that is
  not part of the source tree) are modelled from the specification.

External collaborators (the Mercurial process, the Review Board HTTP API)
are modelled as explicit state: review requests live in a `SState` record,
and side effects (diff uploads / draft updates, review-request creations)
are recorded in logs inside the state.
-/

set_option autoImplicit false

/-! ### Ticket-reference matching (rbtools/hooks/common.py)

A backtracking regex engine specialised to the constructs used by
`TICKET_TRIGGER + ticket_id + ('(?:' + TICKET_JOIN + ticket_id + ')?') * 10`:
case-insensitive literals, ordered alternation, greedy `?`, greedy character
class stars, and one capturing group per ticket id.  A matcher is written in
continuation-passing style, exactly like Python's `re` engine: alternatives
are tried in order, quantifiers prefer the longest (or present) choice, the
continuation decides whether the rest of the pattern succeeds, and the first
overall success is the match. -/

/-- Case-insensitive character comparison: `p` is a (lowercase) pattern
character, `c` a text character (`re.IGNORECASE`). -/
def chEqCI (p c : Char) : Bool :=
  p == c || (97 ≤ p.toNat && p.toNat ≤ 122 && c.toNat + 32 == p.toNat)

/-- Strip a literal pattern from the front of the text, case-insensitively. -/
def stripCI : List Char → List Char → Option (List Char)
  | [], t => some t
  | _ :: _, [] => none
  | p :: ps, c :: cs => if chEqCI p c then stripCI ps cs else none

/-- Outcome of a match attempt: the remaining text and the captured groups
of the first (highest-priority) overall success, if any. -/
abbrev MRes : Type := Option (List Char × List (List Char))

/-- A continuation: given the remaining text and the captures accumulated so
far, attempt the rest of the pattern. -/
abbrev MCont : Type := List Char → List (List Char) → MRes

/-- A matcher transforms the continuation for what follows it into a
continuation for itself followed by what follows it. -/
abbrev Matcher : Type := MCont → MCont

/-- The empty pattern. -/
def mEps : Matcher := fun k => k

/-- A case-insensitive literal. -/
def mLitCI (pat : List Char) : Matcher := fun k t caps =>
  match stripCI pat t with
  | some r => k r caps
  | none => none

/-- Concatenation of two patterns. -/
def mSeq (a b : Matcher) : Matcher := fun k => a (b k)

/-- Try each alternative in order; the first success wins. -/
def mAltAux (k : MCont) (t : List Char) (caps : List (List Char)) : List Matcher → MRes
  | [] => none
  | m :: rest =>
    match m k t caps with
    | some r => some r
    | none => mAltAux k t caps rest

/-- Ordered alternation (first alternative is preferred, as in Python). -/
def mAlt (ms : List Matcher) : Matcher := fun k t caps => mAltAux k t caps ms

/-- Greedy `?`: matching is preferred over skipping. -/
def mOpt (a : Matcher) : Matcher := fun k t caps =>
  match a k t caps with
  | some r => some r
  | none => k t caps

/-- Length of the longest run of class characters at the front of the text. -/
def countLead (cls : Char → Bool) : List Char → Nat
  | [] => 0
  | c :: r => if cls c then countLead cls r + 1 else 0

/-- Backtracking over star lengths `j+1, j, ..., 0`, longest first. -/
def starAux (k : MCont) (t : List Char) (caps : List (List Char)) : Nat → MRes
  | 0 => k t caps
  | j + 1 =>
    match k (t.drop (j + 1)) caps with
    | some r => some r
    | none => starAux k t caps j

/-- Greedy star over a character class (`\s*`, `:*`): longest run first. -/
def mStarCls (cls : Char → Bool) : Matcher := fun k t caps =>
  starAux k t caps (countLead cls t)

/-- ASCII decimal digit (`\d` on the inputs in question). -/
def pyDigit (c : Char) : Bool := 48 ≤ c.toNat && c.toNat ≤ 57

/-- Python `\s` whitespace characters. -/
def pyWS (c : Char) : Bool :=
  c == ' ' || c == '\t' || c == '\n' || c == '\r' || c.toNat == 11 || c.toNat == 12

/-- Backtracking over digit-run lengths `j+1, ..., 1`; at least one digit. -/
def digitsAux (k : MCont) (t : List Char) (caps : List (List Char)) : Nat → MRes
  | 0 => none
  | j + 1 =>
    match k (t.drop (j + 1)) caps with
    | some r => some r
    | none => digitsAux k t caps j

/-- Greedy `\d+`: longest digit run first. -/
def mDigits : Matcher := fun k t caps => digitsAux k t caps (countLead pyDigit t)

/-- A capturing group around a pattern: appends the consumed span to the
captures before continuing. -/
def mCapture (a : Matcher) : Matcher := fun k t caps =>
  a (fun t2 caps2 => k t2 (caps2 ++ [t.take (t.length - t2.length)])) t caps

/-- The trigger vocabulary, in the source's alternation order. -/
def TICKET_VERBS : List (List Char) :=
  [("close".toList), ("closed".toList), ("closes".toList), ("fix".toList),
   ("fixes".toList), ("fixed".toList), ("addresses".toList), ("re".toList),
   ("references".toList), ("refs".toList), ("see".toList), ("issue".toList),
   ("bug".toList), ("ticket".toList)]

/-- `TICKET_TRIGGER`: a verb, optional whitespace, an optional `ticket`/`bug`
word, any number of colons, optional whitespace. -/
def mTrigger : Matcher :=
  mSeq (mAlt (TICKET_VERBS.map mLitCI))
    (mSeq (mStarCls pyWS)
      (mSeq (mOpt (mAlt [mLitCI ("ticket".toList), mLitCI ("bug".toList)]))
        (mSeq (mStarCls (fun c => c == ':')) (mStarCls pyWS))))

/-- `TICKET_JOIN`: whitespace, then a comma, `and`, or `, and`, then
whitespace. -/
def mJoin : Matcher :=
  mSeq (mStarCls pyWS)
    (mSeq (mAlt [mLitCI (",".toList), mLitCI ("and".toList), mLitCI (", and".toList)])
      (mStarCls pyWS))

/-- `ticket_id`: an optional `#`, then the capturing group made of one of the
configured prefixes followed by digits (`prefixes = ['']` by default). -/
def mTicketId (prefixes : List (List Char)) : Matcher :=
  mSeq (mOpt (mLitCI ("#".toList)))
    (mCapture (mSeq (mAlt (prefixes.map mLitCI)) mDigits))

/-- n-fold concatenation of a pattern with itself (the `* 10` in the source
is string repetition of the optional continuation group). -/
def mRep (a : Matcher) : Nat → Matcher
  | 0 => mEps
  | n + 1 => mSeq a (mRep a n)

/-- The full pattern used by both `find_ticket_refs` and
`linkify_ticket_refs`: a trigger, one ticket id, then ten optional
`JOIN ticket_id` continuations. -/
def ticketPattern (prefixes : List (List Char)) : Matcher :=
  mSeq mTrigger (mSeq (mTicketId prefixes) (mRep (mOpt (mSeq mJoin (mTicketId prefixes))) 10))

/-- Attempt the pattern at the start of the text, with the accepting
continuation and no captures: Python's `re.match` at one position. -/
def pyMatch (m : Matcher) (t : List Char) : MRes :=
  m (fun rem caps => some (rem, caps)) t []

/-- `re.findall` scanning: find the leftmost match, record its captures,
continue after it (fuel bounds the recursion; the pattern never matches the
empty string, and on failure the scan advances one character). -/
def findAllAux (m : Matcher) : Nat → List Char → List (List (List Char))
  | 0, _ => []
  | fuel + 1, t =>
    match pyMatch m t with
    | none =>
      (match t with
       | [] => []
       | _ :: r => findAllAux m fuel r)
    | some (rem, caps) =>
      caps ::
        (match t with
         | [] => []
         | _ :: r =>
           if rem.length < t.length then findAllAux m fuel rem else findAllAux m fuel r)

/-- All matches of a pattern in a text, leftmost first. -/
def pyFindall (m : Matcher) (t : List Char) : List (List (List Char)) :=
  findAllAux m (t.length + 1) t

/-- Python string comparison: lexicographic by code point. -/
def lexLt : List Char → List Char → Bool
  | [], [] => false
  | [], _ :: _ => true
  | _ :: _, [] => false
  | a :: ar, b :: br =>
    if a.toNat < b.toNat then true
    else if b.toNat < a.toNat then false
    else lexLt ar br

/-- Insertion step of `sorted` (ascending, lexicographic). -/
def insertLex (x : List Char) : List (List Char) → List (List Char)
  | [] => [x]
  | y :: ys => if lexLt y x then y :: insertLex x ys else x :: y :: ys

/-- Python `sorted` on a list of strings. -/
def sortLex : List (List Char) → List (List Char)
  | [] => []
  | x :: xs => insertLex x (sortLex xs)

/-- The default `prefixes=['']` of the source. -/
def defaultPrefixes : List (List Char) := [[]]

/-- `find_ticket_refs(text, prefixes)`: all participating ticket-id captures
of all matches, in match order, then `sorted` -- the source sorts the
captured strings lexicographically and performs no deduplication (its
initial `ids = set()` is immediately overwritten by a list comprehension). -/
def find_ticket_refs (prefixes : List (List Char)) (text : List Char) : List (List Char) :=
  sortLex ((pyFindall (ticketPattern prefixes) text).flatMap id)

/-! ### Data model (rbtools/hooks/mercurial.py and the review service)

Reviews, diffs and review requests as the hook reads them through the
Review Board API.  `realCommitId` models the auxiliary exact-changeset-id
field used by the newer contrib orchestrator; the old orchestrator ignores
it. -/

/-- Status of a review request (`pending` / `submitted`). -/
inductive RStatus where
  | pending
  | submitted
deriving DecidableEq

/-- A review: ship-it flag, author id, timestamp. -/
structure Review where
  ship_it : Bool
  userId : Nat
  timestamp : Nat
deriving DecidableEq

/-- A review request as read from the service. `commitId` is the key the
hooks match on; `diffTimestamps` are the upload times of its diffs. -/
structure RevReq where
  id : Nat
  commitId : Nat
  realCommitId : Option Nat
  approved : Bool
  submitterId : Nat
  reviews : List Review
  diffTimestamps : List Nat
  status : RStatus
deriving DecidableEq

/-- An incoming changeset: its VCS-native identifier, its author/date
fingerprint, and whether the VCS flags it as a merge. -/
structure Changeset where
  nativeId : Nat
  fingerprint : Nat
  isMerge : Bool
deriving DecidableEq

/-- The externally owned service state, together with effect logs: `uploads`
records every diff-upload/draft-update as `(request id, changeset span)`,
and `creations` counts review-request creations. -/
structure SState where
  reqs : List RevReq
  nextReqId : Nat
  uploads : List (Nat × List Nat)
  creations : Nat
deriving DecidableEq

/-- `approved_by_others(revreq)` from `rbtools/hooks/mercurial.py`: false if
the approval flag is unset, otherwise true iff some ship-it review was
written by a user other than the submitter.  (The source reads the
submitter id and each review's user id through the API.) -/
def approved_by_others (r : RevReq) : Bool :=
  if !r.approved then false
  else r.reviews.any (fun rv => rv.ship_it && rv.userId != r.submitterId)

/-- Latest diff-upload timestamp of a request; 0 when it has no diffs, so
that with no uploads every review timestamp qualifies. -/
def latest_diff_date (r : RevReq) : Nat := r.diffTimestamps.foldl max 0

/-- The approval rule as the specification words it (for comparison with
`approved_by_others`): the approval flag must be set and some ship-it review
must come from a non-submitter AND be timestamped at or after the latest
diff upload. -/
def approved_by_others_claim (r : RevReq) : Bool :=
  r.approved &&
    r.reviews.any (fun rv =>
      rv.ship_it && rv.userId != r.submitterId && decide (latest_diff_date r ≤ rv.timestamp))

/-- Python `str` on a boolean, as used by `configbool`'s default handling. -/
def pyStrBool : Bool → String
  | false => "False"
  | true => "True"

/-- `configbool(section, name, default)`: the effective configuration string
(`none` models an absent/empty setting, in which case `str(default)` is
used) is false exactly on `"0"` and `"False"`; anything else is true. -/
def configbool (value : Option String) (default : Bool) : Bool :=
  if value.getD (pyStrBool default) = "0" ∨ value.getD (pyStrBool default) = "False" then false
  else true

/-- `find_review_request(root, rbrepo, commit_id)`: the service returns the
requests whose `commit_id` matches; the first is returned, and
`NotFoundError` (modelled as `Except.error ()`) is raised when there are
none. -/
def find_review_request (reqs : List RevReq) (cid : Nat) : Except Unit RevReq :=
  match reqs.find? (fun r => r.commitId == cid) with
  | some r => Except.ok r
  | none => Except.error ()

/-- `update_and_publish(root, ticketurl, all_ctx, revreq, parent)` of
`rbtools/hooks/mercurial.py`: uploads the diff spanning the given changesets
(recorded in the `uploads` log) and publishes a draft whose `commit_id` is
the last changeset's native id; the textual fields (summary, description)
are produced by the external `hg log` collaborator and are not modelled. -/
def update_and_publish (s : SState) (rid : Nat) (all_ctx : List Changeset) : SState :=
  let tip := match all_ctx.getLast? with
    | some c => c.nativeId
    | none => 0
  { s with
    uploads := s.uploads ++ [(rid, all_ctx.map (fun c => c.nativeId))],
    reqs := s.reqs.map (fun q => if q.id == rid then { q with commitId := tip } else q) }

/-- Outcome of the changeset loop of the old `push_review_hook_base`:
either an early `HOOK_FAILED` return, or loop completion carrying the last
approved index and the approved request ids. -/
inductive LoopOut where
  | failed (s : SState)
  | done (lastApproved : Option Nat) (approvedIds : List Nat) (s : SState)
deriving DecidableEq

/-- The `for i, ctx in enumerate(all_ctx)` loop of the old
`push_review_hook_base`: a `NotFoundError` from `find_review_request` is
caught and the loop continues; an approved match advances `last_approved`;
a pending match updates the draft with the FULL incoming list (when commits
follow it) and returns `HOOK_FAILED`.  `rest.isEmpty` is the structural
counterpart of the source's `i < len(all_ctx) - 1` test. -/
def hookLoop (all_ctx : List Changeset) :
    List Changeset → Nat → Option Nat → List Nat → SState → LoopOut
  | [], _, la, ap, s => LoopOut.done la ap s
  | c :: rest, i, la, ap, s =>
    match find_review_request s.reqs c.nativeId with
    | Except.error _ => hookLoop all_ctx rest (i + 1) la ap s
    | Except.ok r =>
      if approved_by_others r then
        hookLoop all_ctx rest (i + 1) (some i) (ap ++ [r.id]) s
      else if rest.isEmpty then LoopOut.failed s
      else LoopOut.failed (update_and_publish s r.id all_ctx)

/-- `HOOK_FAILED = True` (push rejected). -/
def HOOK_FAILED : Bool := true

/-- `HOOK_SUCCESS = False` (push accepted). -/
def HOOK_SUCCESS : Bool := false

/-- `close_request(rev_req)`: mark the request submitted. -/
def close_request (r : RevReq) : RevReq := { r with status := RStatus.submitted }

/-- `push_review_hook_base(root, rbrepo, node)` of
`rbtools/hooks/mercurial.py`: run the loop; if the changesets after the last
approved index are empty or (with `allow_merge`) all merges, close the
approved requests and accept; otherwise create a request keyed by the tip's
native id, upload the remaining span to it, and reject. -/
def push_review_hook_base (allow_merge : Bool) (pusher : Nat)
    (all_ctx : List Changeset) (s : SState) : Bool × SState :=
  match hookLoop all_ctx all_ctx 0 none [] s with
  | LoopOut.failed s1 => (HOOK_FAILED, s1)
  | LoopOut.done la ap s1 =>
    let remaining := match la with
      | none => all_ctx
      | some k => all_ctx.drop (k + 1)
    let approved := remaining.isEmpty || (allow_merge && remaining.all (fun c => c.isMerge))
    if approved then
      (HOOK_SUCCESS,
       { s1 with reqs := s1.reqs.map (fun q => if ap.contains q.id then close_request q else q) })
    else
      let tipId := match remaining.getLast? with
        | some c => c.nativeId
        | none => 0
      let n : RevReq :=
        { id := s1.nextReqId, commitId := tipId, realCommitId := none,
          approved := false, submitterId := pusher, reviews := [],
          diffTimestamps := [], status := RStatus.pending }
      let s2 : SState :=
        { s1 with
          reqs := s1.reqs ++ [n]
          nextReqId := s1.nextReqId + 1
          creations := s1.creations + 1 }
      (HOOK_FAILED, update_and_publish s2 n.id remaining)

/-! ### The contrib orchestrator (contrib/tools/mercurial_push.py)

It imports `find_review_requests`, `exact_match`, `update_draft` and
`date_author_hash` from a version of `rbtools.hooks.mercurial` that is not
part of the source tree; those are modelled from the specification (and
fingerprints are carried directly on changesets instead of being computed
by the missing `date_author_hash`). -/

/-- Modelled from the spec: `exact_match` is absent from the source tree; a
match is exact iff the request's auxiliary exact-changeset-id field equals
the changeset's native identifier (spec section 4.2). -/
def exact_match (r : RevReq) (c : Changeset) : Bool := r.realCommitId == some c.nativeId

/-- Modelled from the spec: `find_review_requests` is absent from the source
tree; one point query per changeset, keyed by fingerprint, returning the
(request, index) pairs of the changesets that matched, preserving input
order, with the service's first result as tie-break (spec section 4.2). -/
def find_review_requests (reqs : List RevReq) (changesets : List Changeset) :
    List (RevReq × Nat) :=
  changesets.enum.filterMap (fun ic =>
    match reqs.find? (fun r => r.commitId == ic.2.fingerprint) with
    | some r => some (r, ic.1)
    | none => none)

/-- Modelled from the spec: `update_draft` is absent from the source tree;
it regenerates the draft from the changeset span, uploads the diff (logged
in `uploads`), sets the fingerprint key to the span's last changeset's
fingerprint and the exact-match marker to its native id (spec section 4.4;
the content-fingerprint upload-skipping of step 6 is not needed by the
claims and is not modelled). -/
def update_draft (s : SState) (rid : Nat) (changesets : List Changeset) : SState :=
  let tipFp := match changesets.getLast? with
    | some c => c.fingerprint
    | none => 0
  let tipNat := match changesets.getLast? with
    | some c => c.nativeId
    | none => 0
  { s with
    uploads := s.uploads ++ [(rid, changesets.map (fun c => c.nativeId))],
    reqs := s.reqs.map (fun q =>
      if q.id == rid then { q with commitId := tipFp, realCommitId := some tipNat } else q) }

/-- `is_approved(changesets)` of `contrib/tools/mercurial_push.py`: true for
the empty list, or when the `allow_merge` configuration flag is set (via
`configbool`, default false) and every changeset is a merge. -/
def is_approved (allowMergeConf : Option String) (changesets : List Changeset) : Bool :=
  if changesets.isEmpty then true
  else configbool allowMergeConf false && changesets.all (fun c => c.isMerge)

/-- How a `publish_maybe` invocation can terminate abnormally: a propagated
`APIError` with its numeric code, or Python's unbound-local-variable error. -/
inductive PubErr where
  | api (code : Nat)
  | unboundLocal
deriving DecidableEq

/-- `publish_maybe(revreq)` of `contrib/tools/mercurial_push.py`, with the
outcomes of the two API calls injected.  When `get_draft` raises a code-100
`APIError`, the except clause swallows it, but the local variable `draft`
was never bound, so the following `draft.update(public=True)` raises an
unbound-local error (which `except APIError` does not catch).  A code-211
error from `update` is swallowed; other codes propagate. -/
def publish_maybe (publishConf : Option String)
    (getDraftRes : Except Nat Unit) (updateRes : Except Nat Unit) : Except PubErr Unit :=
  if configbool publishConf true then
    match getDraftRes with
    | Except.ok _ =>
      (match updateRes with
       | Except.ok _ => Except.ok ()
       | Except.error c => if c != 211 then Except.error (PubErr.api c) else Except.ok ())
    | Except.error c =>
      if c != 100 then Except.error (PubErr.api c)
      else Except.error PubErr.unboundLocal
  else Except.ok ()

/-- Placeholder changeset for an index lookup that cannot fail (the matcher
only returns indices of existing changesets). -/
def dummyChangeset : Changeset := { nativeId := 0, fingerprint := 0, isMerge := false }

/-- Placeholder request for a lookup guarded by non-emptiness. -/
def dummyReq : RevReq :=
  { id := 0, commitId := 0, realCommitId := none, approved := false,
    submitterId := 0, reviews := [], diffTimestamps := [], status := RStatus.pending }

/-- The `for revreq, index in zip(revreqs, indices)` loop of the contrib
`push_review_hook_base`: every non-exact match gets its draft updated (and
published) with the span `changesets[prev_index:index + 1]`. -/
def cUpdLoop (changesets : List Changeset) :
    List (RevReq × Nat) → Nat → SState → SState
  | [], _, s => s
  | (r, idx) :: rest, prev, s =>
    let span := (changesets.drop prev).take (idx + 1 - prev)
    let c := (changesets.drop idx).headD dummyChangeset
    let s1 := if exact_match r c then s else update_draft s r.id span
    cUpdLoop changesets rest (idx + 1) s1

/-- The common tail of the contrib `push_review_hook_base`: close every
matched request and accept when all approvals hold, otherwise reject. -/
def cFinish (pairs : List (RevReq × Nat)) (approvals : List Bool) (s : SState) :
    Bool × SState :=
  if approvals.all id then
    (HOOK_SUCCESS,
     { s with reqs := s.reqs.map (fun q =>
         if pairs.any (fun p => p.1.id == q.id) then close_request q else q) })
  else (HOOK_FAILED, s)

/-- `prev_index` after the matcher loop: one past the last matched index
(0 when nothing matched), so that `changesets[prev_index:]` is the span of
new changesets. -/
def cPrevIdx (pairs : List (RevReq × Nat)) : Nat :=
  match pairs.getLast? with
  | some p => p.2 + 1
  | none => 0

/-- `push_review_hook_base(root, rbrepo, node, url, submitter)` of
`contrib/tools/mercurial_push.py`.  The result is `none` when the Python
code would crash on the unbound variable `revreq`: the else branch logs
`revreq.id` with `revreq` only bound by the (empty) matcher loop. -/
def c_push_review_hook_base (allowMergeConf : Option String) (pusher : Nat)
    (changesets : List Changeset) (s : SState) : Option (Bool × SState) :=
  let pairs := find_review_requests s.reqs changesets
  let s1 := cUpdLoop changesets pairs 0 s
  let newCs := changesets.drop (cPrevIdx pairs)
  let approvals := pairs.map (fun p => approved_by_others p.1)
  let lastApproved := (approvals.getLast?).getD true
  if lastApproved && !newCs.isEmpty && !is_approved allowMergeConf newCs then
    let tipFp := match newCs.getLast? with
      | some c => c.fingerprint
      | none => 0
    let n : RevReq :=
      { id := s1.nextReqId, commitId := tipFp, realCommitId := none,
        approved := false, submitterId := pusher, reviews := [],
        diffTimestamps := [], status := RStatus.pending }
    let s2 : SState :=
      { s1 with
        reqs := s1.reqs ++ [n]
        nextReqId := s1.nextReqId + 1
        creations := s1.creations + 1 }
    let s3 := update_draft s2 n.id newCs
    some (cFinish pairs (approvals ++ [false]) s3)
  else
    if pairs.isEmpty then none
    else
      let rq := ((pairs.getLast?).map (fun p => p.1)).getD dummyReq
      let spanCs :=
        if 1 < pairs.length then
          changesets.drop (((pairs[pairs.length - 2]?).map (fun p => p.2 + 1)).getD 0)
        else changesets
      let s3 := update_draft s1 rq.id spanCs
      let approvals2 :=
        approvals.set (approvals.length - 1) (lastApproved && is_approved allowMergeConf newCs)
      some (cFinish pairs approvals2 s3)

/-! ### Description merging (join_descriptions)

`join_descriptions` and `DELIMITER` are imported by `rbtools/hooks/tests.py`
from a version of `rbtools/hooks/mercurial.py` that is not part of the
source tree; they are modelled from the specification (section 4.4 step 4):
everything after the first occurrence of the literal delimiter marker in the
old description is user-authored text, preserved verbatim after the newly
generated text and the delimiter; with no marker, the old description is
discarded and the delimiter appended with empty trailing content. -/

/-- Modelled from the spec: the literal delimiter marker separating generated
text from user-authored text; its exact wording is absent from the source
tree, so a representative literal is used. -/
def DELIMITER : List Char := ("\n-- user content below --\n").toList

/-- Does `d` occur at the head of `s`? -/
def begMatch : List Char → List Char → Bool
  | [], _ => true
  | _ :: _, [] => false
  | d :: ds, c :: cs => d == c && begMatch ds cs

/-- Index of the first occurrence of `d` in the text, if any. -/
def firstOcc (d : List Char) : List Char → Option Nat
  | [] => if d.isEmpty then some 0 else none
  | c :: rest =>
    if begMatch d (c :: rest) then some 0
    else (firstOcc d rest).map (fun i => i + 1)

/-- Modelled from the spec: `join_descriptions(old, new)` (absent from the
source tree; pinned by `test_join_descriptions` in `rbtools/hooks/tests.py`). -/
def join_descriptions (old new : List Char) : List Char :=
  match firstOcc DELIMITER old with
  | some i => new ++ DELIMITER ++ old.drop (i + DELIMITER.length)
  | none => new ++ DELIMITER

/-! ### Concrete scenarios used by counterexamples and witnesses -/

/-- A request whose approval flag is set and whose only ship-it review, by a
non-submitter, predates its only diff upload. -/
def c1req : RevReq :=
  { id := 0, commitId := 0, realCommitId := none, approved := true,
    submitterId := 0, reviews := [{ ship_it := true, userId := 1, timestamp := 5 }],
    diffTimestamps := [10], status := RStatus.pending }

/-- An approved request matching the first changeset of the C7 scenario. -/
def c7reqA : RevReq :=
  { id := 0, commitId := 10, realCommitId := none, approved := true,
    submitterId := 0, reviews := [{ ship_it := true, userId := 1, timestamp := 0 }],
    diffTimestamps := [], status := RStatus.pending }

/-- A pending request matching the second changeset of the C7 scenario. -/
def c7reqB : RevReq :=
  { id := 1, commitId := 11, realCommitId := none, approved := false,
    submitterId := 0, reviews := [], diffTimestamps := [], status := RStatus.pending }

/-- Three incoming changesets: one approved, one pending-matched, one new. -/
def c7ctxs : List Changeset :=
  [{ nativeId := 10, fingerprint := 0, isMerge := false },
   { nativeId := 11, fingerprint := 0, isMerge := false },
   { nativeId := 12, fingerprint := 0, isMerge := false }]

/-- Initial service state of the C7 scenario. -/
def c7s0 : SState := { reqs := [c7reqA, c7reqB], nextReqId := 2, uploads := [], creations := 0 }

/-- A push consisting of a single merge changeset. -/
def c3ctxs : List Changeset := [{ nativeId := 1, fingerprint := 100, isMerge := true }]

/-- An empty service state. -/
def emptyState : SState := { reqs := [], nextReqId := 0, uploads := [], creations := 0 }

/-- An exactly-matched, approved-by-another request for the C3 witness. -/
def c3wreq : RevReq :=
  { id := 0, commitId := 100, realCommitId := some 1, approved := true,
    submitterId := 0, reviews := [{ ship_it := true, userId := 1, timestamp := 0 }],
    diffTimestamps := [], status := RStatus.pending }

/-- A matched non-merge changeset followed by a trailing merge. -/
def c3wctxs : List Changeset :=
  [{ nativeId := 1, fingerprint := 100, isMerge := false },
   { nativeId := 2, fingerprint := 200, isMerge := true }]

/-- Service state for the C3 witness. -/
def c3ws : SState := { reqs := [c3wreq], nextReqId := 1, uploads := [], creations := 0 }

/-- The review request the old orchestrator creates on its reject path. -/
def newReq (pusher tipId rid : Nat) : RevReq :=
  { id := rid, commitId := tipId, realCommitId := none, approved := false,
    submitterId := pusher, reviews := [], diffTimestamps := [], status := RStatus.pending }

/-- The service state after the first invocation of a fresh (no prior
matches) rejected push: one created request keyed by the tip's native id,
and one recorded diff upload spanning the push. -/
def c2After (pusher : Nat) (ctxs : List Changeset) (tipId : Nat) (s0 : SState) : SState :=
  { reqs := s0.reqs ++ [newReq pusher tipId s0.nextReqId]
    nextReqId := s0.nextReqId + 1
    uploads := s0.uploads ++ [(s0.nextReqId, ctxs.map (fun c => c.nativeId))]
    creations := s0.creations + 1 }

/-- First changeset of the C2 witness push. -/
def c2wa : Changeset := { nativeId := 1, fingerprint := 0, isMerge := false }

/-- Second (tip) changeset of the C2 witness push. -/
def c2wb : Changeset := { nativeId := 2, fingerprint := 0, isMerge := false }

/-- How many captures a matcher can add before invoking its continuation:
`CapGrowth m b` says every success of `m` comes from a continuation call
whose capture list grew by at most `b` entries. -/
def CapGrowth (m : Matcher) (b : Nat) : Prop :=
  ∀ (k : MCont) (t : List Char) (caps : List (List Char)) (r : List Char × List (List Char)),
    m k t caps = some r →
    ∃ t2 caps2, k t2 caps2 = some r ∧ caps2.length ≤ caps.length + b

/-! ### Theorems -/

/-- C1 counterexample: a review request whose approval flag is set and whose
only ship-it review comes from a non-submitter but predates the latest diff
upload.  The source `approved_by_others` returns true for it, while the
claimed characterisation (which requires the review to postdate the last
diff upload) is false, so the claimed equivalence fails at this input. -/
theorem c1_counterexample :
    ¬ (approved_by_others c1req = true ↔ approved_by_others_claim c1req = true) := by
  decide

/-- C1 (amended): `approved_by_others(request)` returns true if and only if
the request's approved flag is true and some ship-it review's author is not
the request's submitter -- review timestamps and diff-upload timestamps play
no role in this function. -/
theorem c1_amended_approved_by_others (r : RevReq) :
    approved_by_others r = true ↔
      (r.approved = true ∧ ∃ rv ∈ r.reviews, rv.ship_it = true ∧ rv.userId ≠ r.submitterId) := by
  cases ha : r.approved <;>
    simp [approved_by_others, ha, List.any_eq_true, Bool.and_eq_true, bne_iff_ne]

set_option maxHeartbeats 2000000 in
/-- C4: `find_ticket_refs` on the claimed input `"see issue: 10,11,2"`
returns the captured strings in lexicographic order, `["10", "11", "2"]`,
not the value-sorted `[2, 10, 11]` the claim (and the repository's own test
`test_ticket_refs`) expects; and on
`"fixes 1, 2, 3. Addresses 3, 4, 5."` it keeps the duplicate `"3"`,
performing no deduplication. -/
theorem c4_find_ticket_refs_eval :
    find_ticket_refs defaultPrefixes (("see issue: 10,11,2").toList) =
      [("10".toList), ("11".toList), ("2".toList)]
    ∧ find_ticket_refs defaultPrefixes (("fixes 1, 2, 3. Addresses 3, 4, 5.").toList) =
      [("1".toList), ("2".toList), ("3".toList), ("3".toList), ("4".toList), ("5".toList)]
    ∧ ([("10".toList), ("11".toList), ("2".toList)] : List (List Char)) ≠
      [("2".toList), ("10".toList), ("11".toList)] :=
  ⟨rfl, rfl, by decide⟩

set_option maxHeartbeats 4000000 in
/-- C5 counterexample: one trigger phrase (`fixes`) followed by eleven
comma/and-joined ids -- all eleven are matched as part of the same trigger,
refuting the claimed bound of at most ten consecutive references per
trigger. -/
theorem c5_counterexample :
    find_ticket_refs defaultPrefixes (("fixes 1, 2, 3, 4, 5, 6, 7, 8, 9, 10, 11").toList) =
      [("1".toList), ("10".toList), ("11".toList), ("2".toList), ("3".toList), ("4".toList),
       ("5".toList), ("6".toList), ("7".toList), ("8".toList), ("9".toList)]
    ∧ (find_ticket_refs defaultPrefixes
        (("fixes 1, 2, 3, 4, 5, 6, 7, 8, 9, 10, 11").toList)).length = 11 :=
  ⟨rfl, rfl⟩

/-- C3 counterexample: a push consisting of a single merge changeset with
`allow_merge` enabled and no matching review request.  The claim says the
orchestrator accepts such a push; the contrib code instead reaches its else
branch with the loop variable `revreq` unbound and crashes (modelled as
`none`), so the push is not accepted. -/
theorem c3_counterexample :
    c_push_review_hook_base (some ("1")) 7 c3ctxs emptyState = none := rfl

/-- C7 counterexample: changesets `[10, 11, 12]` where an approved request
covers changeset 10 (so the not-approved span is `[11, 12]`) and a pending
request matches changeset 11.  The hook rejects, but updates the pending
request's draft with the FULL incoming list `[10, 11, 12]`, not with the
not-approved span `[11, 12]` the claim states. -/
theorem c7_counterexample :
    (push_review_hook_base false 9 c7ctxs c7s0).1 = HOOK_FAILED
    ∧ (push_review_hook_base false 9 c7ctxs c7s0).2.uploads = [(1, [10, 11, 12])]
    ∧ ([10, 11, 12] : List Nat) ≠ [11, 12] :=
  ⟨rfl, rfl, by decide⟩

/-- C8: evaluating `publish_maybe` (with the `publish` setting absent, hence
defaulting to true).  A code-100 `APIError` from `get_draft` ("draft does
not exist") is swallowed by the except clause, but publishing then crashes
on the unbound local `draft` instead of completing -- contradicting the
code's own comment that code 100 means the draft is already published and
is benign.  A code-211 error from `update` ("draft has no changes") is
swallowed and publishing completes; any other code propagates as an
`APIError`. -/
theorem c8_publish_maybe_eval :
    publish_maybe none (Except.error 100) (Except.ok ()) = Except.error PubErr.unboundLocal
    ∧ publish_maybe none (Except.ok ()) (Except.error 211) = Except.ok ()
    ∧ publish_maybe none (Except.ok ()) (Except.error 500) = Except.error (PubErr.api 500)
    ∧ publish_maybe none (Except.error 105) (Except.ok ()) = Except.error (PubErr.api 105) :=
  ⟨rfl, rfl, rfl, rfl⟩

/-- C10: `configbool` returns false exactly when the effective configuration
string is `"0"` or `"False"`; any other value -- including `"false"` and
`"no"` -- yields true, and an absent setting applies the same rule to
`str(default)` (so default false gives false, default true gives true). -/
theorem c10_configbool (v : String) (d : Bool) :
    (configbool (some v) d = false ↔ (v = "0" ∨ v = "False"))
    ∧ configbool none d = configbool (some (pyStrBool d)) d
    ∧ configbool (some ("false")) d = true
    ∧ configbool (some ("no")) d = true
    ∧ configbool none false = false
    ∧ configbool none true = true := by
  refine ⟨?_, rfl, rfl, rfl, by decide, by decide⟩
  by_cases h : (v = "0" ∨ v = "False") <;> simp [configbool, h]

/-- Helper: a list maps to itself under a function fixing its elements. -/
theorem list_map_id_of {α : Type} (f : α → α) :
    ∀ (l : List α), (∀ x ∈ l, f x = x) → l.map f = l := by
  intro l
  induction l with
  | nil => intro _; rfl
  | cons x xs ih =>
    intro h
    have hx : f x = x := h x (List.mem_cons_self x xs)
    have hxs := ih (fun y hy => h y (List.mem_cons_of_mem x hy))
    simp [hx, hxs]

/-- Helper: `find?` skips a front segment on which the predicate fails. -/
theorem find?_append_none {α : Type} (p : α → Bool) (l1 l2 : List α)
    (h : ∀ x ∈ l1, p x = false) : List.find? p (l1 ++ l2) = List.find? p l2 := by
  induction l1 with
  | nil => rfl
  | cons a l ih =>
    have ha : p a = false := h a (List.mem_cons_self a l)
    rw [List.cons_append, List.find?_cons, ha]
    exact ih (fun x hx => h x (List.mem_cons_of_mem a hx))

/-- Helper: `getLast?` of a list with an appended singleton. -/
theorem getLast?_append_singleton {α : Type} (l : List α) (a : α) :
    (l ++ [a]).getLast? = some a := List.getLast?_concat l

/-- Helper: the service lookup raises `NotFoundError` exactly when no
request carries the queried commit id. -/
theorem find_rr_not_found (reqs : List RevReq) (cid : Nat)
    (h : ∀ q ∈ reqs, q.commitId ≠ cid) : find_review_request reqs cid = Except.error () := by
  unfold find_review_request
  have hnone : List.find? (fun r => r.commitId == cid) reqs = none := by
    apply List.find?_eq_none.mpr
    intro q hq
    simp [h q hq]
  rw [hnone]

/-- Helper: the loop runs to completion over changesets that match nothing. -/
theorem hookLoop_skip_all (all_ctx : List Changeset) :
    ∀ (rest : List Changeset) (i : Nat) (la : Option Nat) (ap : List Nat) (s : SState),
    (∀ c ∈ rest, ∀ q ∈ s.reqs, q.commitId ≠ c.nativeId) →
    hookLoop all_ctx rest i la ap s = LoopOut.done la ap s := by
  intro rest
  induction rest with
  | nil => intro i la ap s _; rfl
  | cons c cs ih =>
    intro i la ap s h
    have hf := find_rr_not_found s.reqs c.nativeId (h c (List.mem_cons_self c cs))
    simp only [hookLoop, hf]
    exact ih (i + 1) la ap s (fun c' hc' => h c' (List.mem_cons_of_mem c hc'))

/-- Helper: the loop rejects without a draft update when, after a no-match
front segment, the final changeset is matched by a still-open request. -/
theorem hookLoop_pending_last (all_ctx : List Changeset) :
    ∀ (front : List Changeset) (c : Changeset) (r : RevReq) (i : Nat)
      (la : Option Nat) (ap : List Nat) (s : SState),
    (∀ c' ∈ front, ∀ q ∈ s.reqs, q.commitId ≠ c'.nativeId) →
    find_review_request s.reqs c.nativeId = Except.ok r →
    approved_by_others r = false →
    hookLoop all_ctx (front ++ [c]) i la ap s = LoopOut.failed s := by
  intro front
  induction front with
  | nil =>
    intro c r i la ap s _ hf hn
    simp [hookLoop, hf, hn]
  | cons a l ih =>
    intro c r i la ap s h hf hn
    have hfa := find_rr_not_found s.reqs a.nativeId (h a (List.mem_cons_self a l))
    simp only [List.cons_append, hookLoop, hfa]
    exact ih c r (i + 1) la ap s (fun c' hc' => h c' (List.mem_cons_of_mem a hc')) hf hn

/-- C9: when the service returns no review request with the queried commit
id, `find_review_request` raises `NotFoundError`, and the orchestrator loop
catches it and continues with the next changeset (same state, same
last-approved bookkeeping) instead of aborting the invocation. -/
theorem c9_not_found_skipped :
    (∀ (reqs : List RevReq) (cid : Nat),
       (∀ q ∈ reqs, q.commitId ≠ cid) → find_review_request reqs cid = Except.error ())
    ∧ (∀ (all_ctx : List Changeset) (c : Changeset) (rest : List Changeset) (i : Nat)
         (la : Option Nat) (ap : List Nat) (s : SState),
       (∀ q ∈ s.reqs, q.commitId ≠ c.nativeId) →
       hookLoop all_ctx (c :: rest) i la ap s = hookLoop all_ctx rest (i + 1) la ap s) := by
  constructor
  · exact find_rr_not_found
  · intro all_ctx c rest i la ap s h
    simp only [hookLoop, find_rr_not_found s.reqs c.nativeId h]

/-- C9 witness: a concrete empty service and a concrete changeset. -/
theorem c9_not_found_skipped_witness :
    find_review_request [] 5 = Except.error ()
    ∧ hookLoop [] [dummyChangeset] 0 none [] emptyState = hookLoop [] [] 1 none [] emptyState :=
  ⟨c9_not_found_skipped.1 [] 5 (by simp),
   c9_not_found_skipped.2 [] dummyChangeset [] 0 none [] emptyState (by simp [emptyState])⟩

/-- C7 (amended): whenever the loop finds the matched review request still
open (not approved by others), the invocation rejects; when changesets
follow the match, the request's draft is updated with the ENTIRE incoming
changeset list -- not with the not-approved span the claim states -- and
when the open request matches the final changeset, no draft update happens
at all; a failed loop makes `push_review_hook_base` return `HOOK_FAILED`
with that state. -/
theorem c7_amended_draft_update :
    (∀ (all_ctx : List Changeset) (c : Changeset) (rest : List Changeset) (r : RevReq)
       (i : Nat) (la : Option Nat) (ap : List Nat) (s : SState),
       find_review_request s.reqs c.nativeId = Except.ok r →
       approved_by_others r = false →
       hookLoop all_ctx (c :: rest) i la ap s =
         LoopOut.failed (if rest.isEmpty then s else update_and_publish s r.id all_ctx))
    ∧ (∀ (s : SState) (rid : Nat) (all_ctx : List Changeset),
       (update_and_publish s rid all_ctx).uploads =
         s.uploads ++ [(rid, all_ctx.map (fun c => c.nativeId))])
    ∧ (∀ (am : Bool) (pusher : Nat) (all_ctx : List Changeset) (s s2 : SState),
       hookLoop all_ctx all_ctx 0 none [] s = LoopOut.failed s2 →
       push_review_hook_base am pusher all_ctx s = (HOOK_FAILED, s2)) := by
  refine ⟨?_, ?_, ?_⟩
  · intro all_ctx c rest r i la ap s hf hn
    simp only [hookLoop, hf, hn]
    cases rest <;> simp
  · intro s rid all_ctx
    rfl
  · intro am pusher all_ctx s s2 h
    unfold push_review_hook_base
    rw [h]

/-- C7 witness: in the C7 scenario, the loop reaching the open request at
changeset 11 (with changeset 12 still to come) rejects after updating the
request's draft with the full incoming list. -/
theorem c7_amended_draft_update_witness :
    hookLoop c7ctxs
        [{ nativeId := 11, fingerprint := 0, isMerge := false },
         { nativeId := 12, fingerprint := 0, isMerge := false }] 1 (some 0) [0] c7s0 =
      LoopOut.failed (update_and_publish c7s0 1 c7ctxs) := by
  have h := c7_amended_draft_update.1 c7ctxs
    { nativeId := 11, fingerprint := 0, isMerge := false }
    [{ nativeId := 12, fingerprint := 0, isMerge := false }] c7reqB 1 (some 0) [0] c7s0
    (by rfl) (by rfl)
  simpa using h

/-- C2: invoking the old orchestrator twice in succession on a push none of
whose changesets matches an existing review request (and which is not
auto-approved as all-merges) yields `HOOK_FAILED` both times; the first
invocation creates exactly one review request and uploads exactly one diff,
and the second invocation leaves the service state completely unchanged --
no duplicate diff upload, no duplicate review-request creation. -/
theorem c2_push_idempotent (am : Bool) (pusher : Nat) (front : List Changeset)
    (tipc : Changeset) (s0 : SState)
    (hfresh : ∀ q ∈ s0.reqs, ∀ c ∈ front ++ [tipc], q.commitId ≠ c.nativeId)
    (htip : ∀ c ∈ front, c.nativeId ≠ tipc.nativeId)
    (hid : ∀ q ∈ s0.reqs, q.id ≠ s0.nextReqId)
    (hnm : (am && (front ++ [tipc]).all (fun c => c.isMerge)) = false) :
    ∃ s1, push_review_hook_base am pusher (front ++ [tipc]) s0 = (HOOK_FAILED, s1)
      ∧ push_review_hook_base am pusher (front ++ [tipc]) s1 = (HOOK_FAILED, s1)
      ∧ s1.creations = s0.creations + 1
      ∧ s1.uploads = s0.uploads ++ [(s0.nextReqId, (front ++ [tipc]).map (fun c => c.nativeId))] := by
  refine ⟨c2After pusher (front ++ [tipc]) tipc.nativeId s0, ?_, ?_, rfl, rfl⟩
  · -- first invocation: the loop matches nothing, then the create path runs
    have hloop : hookLoop (front ++ [tipc]) (front ++ [tipc]) 0 none [] s0 =
        LoopOut.done none [] s0 :=
      hookLoop_skip_all _ _ 0 none [] s0 (fun c hc q hq => hfresh q hq c hc)
    have hne : (front ++ [tipc]).isEmpty = false := by cases front <;> rfl
    have hlast : (front ++ [tipc]).getLast? = some tipc := getLast?_append_singleton front tipc
    have hmap : (s0.reqs ++ [newReq pusher tipc.nativeId s0.nextReqId]).map
        (fun q => if q.id == s0.nextReqId
                  then { q with commitId := tipc.nativeId } else q) =
        s0.reqs ++ [newReq pusher tipc.nativeId s0.nextReqId] := by
      apply list_map_id_of
      intro q hq
      rcases List.mem_append.mp hq with hq0 | hq1
      · simp [hid q hq0]
      · have hq2 : q = newReq pusher tipc.nativeId s0.nextReqId := by simpa using hq1
        subst hq2
        simp [newReq]
    unfold push_review_hook_base
    rw [hloop]
    simp only [hne, hnm, hlast, Bool.false_or, Bool.or_self, if_false, Bool.false_eq_true,
      update_and_publish, c2After, newReq]
    simp_all [update_and_publish, c2After, newReq]
  · -- second invocation: the created request matches only the tip and is
    -- still open there, so the loop rejects without touching the state
    have hfront2 : ∀ c' ∈ front,
        ∀ q ∈ (c2After pusher (front ++ [tipc]) tipc.nativeId s0).reqs,
        q.commitId ≠ c'.nativeId := by
      intro c' hc' q hq
      rcases List.mem_append.mp hq with hq0 | hq1
      · exact hfresh q hq0 c' (List.mem_append.mpr (Or.inl hc'))
      · have hq2 : q = newReq pusher tipc.nativeId s0.nextReqId := by simpa using hq1
        subst hq2
        intro hcontra
        exact htip c' hc' (by simpa [newReq] using hcontra.symm)
    have hfind : find_review_request
        (c2After pusher (front ++ [tipc]) tipc.nativeId s0).reqs tipc.nativeId =
        Except.ok (newReq pusher tipc.nativeId s0.nextReqId) := by
      show find_review_request
        (s0.reqs ++ [newReq pusher tipc.nativeId s0.nextReqId]) tipc.nativeId = _
      unfold find_review_request
      rw [find?_append_none _ _ _
        (fun q hq => by simp [hfresh q hq tipc (List.mem_append.mpr (Or.inr (by simp)))])]
      simp [List.find?, newReq]
    have hnap : approved_by_others (newReq pusher tipc.nativeId s0.nextReqId) = false := rfl
    have hloop2 := hookLoop_pending_last (front ++ [tipc]) front tipc
      (newReq pusher tipc.nativeId s0.nextReqId) 0 none []
      (c2After pusher (front ++ [tipc]) tipc.nativeId s0) hfront2 hfind hnap
    unfold push_review_hook_base
    rw [hloop2]

/-- C2 witness: a fresh two-changeset push against an empty service. -/
theorem c2_push_idempotent_witness :
    ∃ s1, push_review_hook_base false 7 ([c2wa] ++ [c2wb]) emptyState = (HOOK_FAILED, s1)
      ∧ push_review_hook_base false 7 ([c2wa] ++ [c2wb]) s1 = (HOOK_FAILED, s1)
      ∧ s1.creations = emptyState.creations + 1
      ∧ s1.uploads = emptyState.uploads ++
          [(emptyState.nextReqId, ([c2wa] ++ [c2wb]).map (fun c => c.nativeId))] :=
  c2_push_idempotent false 7 [c2wa] c2wb emptyState
    (by simp [emptyState]) (by decide) (by simp [emptyState]) (by decide)

/-- Helper: a pattern occurs at the head of itself followed by anything. -/
theorem begMatch_append_self (d x : List Char) : begMatch d (d ++ x) = true := by
  induction d with
  | nil => rfl
  | cons c cs ih => simp [begMatch, ih]

/-- Helper: when the delimiter does not occur before the boundary, its first
occurrence in `pre ++ d ++ user` is exactly at `pre.length`. -/
theorem firstOcc_boundary (d : List Char) (hd : d ≠ []) :
    ∀ (pre user : List Char),
    (∀ j, j < pre.length → begMatch d ((pre ++ d ++ user).drop j) = false) →
    firstOcc d (pre ++ d ++ user) = some pre.length := by
  intro pre
  induction pre with
  | nil =>
    intro user _
    cases hd2 : d with
    | nil => exact absurd hd2 hd
    | cons c cs =>
      subst hd2
      have hb : begMatch (c :: cs) ((c :: cs) ++ user) = true := begMatch_append_self _ _
      simp only [List.cons_append] at hb
      show firstOcc (c :: cs) (c :: (cs ++ user)) = some 0
      unfold firstOcc
      rw [hb]
      rfl
  | cons p ps ih =>
    intro user h
    have h0 : begMatch d (p :: (ps ++ d ++ user)) = false := h 0 (Nat.succ_pos ps.length)
    show firstOcc d (p :: (ps ++ d ++ user)) = some (ps.length + 1)
    unfold firstOcc
    rw [h0]
    simp only [Bool.false_eq_true, if_false]
    rw [ih user (fun j hj => h (j + 1) (Nat.succ_lt_succ hj))]
    rfl

/-- C6: merging descriptions preserves user-authored trailing text: when the
old description is generated text followed by the delimiter and user text
(and the delimiter occurs nowhere earlier), the merge is exactly the new
text, the delimiter, and the user text, verbatim. -/
theorem c6_join_descriptions (pre user new : List Char)
    (h : ∀ j, j < pre.length → begMatch DELIMITER ((pre ++ DELIMITER ++ user).drop j) = false) :
    join_descriptions (pre ++ DELIMITER ++ user) new = new ++ DELIMITER ++ user := by
  have hocc := firstOcc_boundary DELIMITER (by decide) pre user h
  unfold join_descriptions
  rw [hocc]
  show new ++ DELIMITER ++ (pre ++ DELIMITER ++ user).drop (pre.length + DELIMITER.length) =
    new ++ DELIMITER ++ user
  congr 1
  have hlen : pre.length + DELIMITER.length = (pre ++ DELIMITER).length :=
    (List.length_append pre DELIMITER).symm
  rw [hlen]
  exact List.drop_left (pre ++ DELIMITER) user

/-- C6 witness: the concrete pair of descriptions from the claim (and from
`test_join_descriptions` in the repository's test suite). -/
theorem c6_join_descriptions_witness :
    join_descriptions (("1 changesets:\nblabla\n").toList ++ DELIMITER ++ ("usertext").toList)
        (("2 changesets:\nblabla\nfoobar\n").toList) =
      ("2 changesets:\nblabla\nfoobar\n").toList ++ DELIMITER ++ ("usertext").toList :=
  c6_join_descriptions (("1 changesets:\nblabla\n").toList) (("usertext").toList)
    (("2 changesets:\nblabla\nfoobar\n").toList) (by decide)

/-- Helper: a grown bound still bounds. -/
theorem capGrowth_mono {m : Matcher} {b b2 : Nat} (h : CapGrowth m b) (hb : b ≤ b2) :
    CapGrowth m b2 := by
  intro k t caps r h2
  obtain ⟨t2, caps2, h3, hl⟩ := h k t caps r h2
  exact ⟨t2, caps2, h3, by omega⟩

/-- Helper: the empty pattern adds no capture. -/
theorem capGrowth_mEps : CapGrowth mEps 0 := by
  intro k t caps r h
  exact ⟨t, caps, h, Nat.le_refl _⟩

/-- Helper: a literal adds no capture. -/
theorem capGrowth_mLitCI (pat : List Char) : CapGrowth (mLitCI pat) 0 := by
  intro k t caps r h
  unfold mLitCI at h
  cases hs : stripCI pat t with
  | none => rw [hs] at h; exact absurd h (by simp)
  | some t2 => rw [hs] at h; exact ⟨t2, caps, h, Nat.le_refl _⟩

/-- Helper: concatenation adds the sum of the two bounds. -/
theorem capGrowth_mSeq {a b : Matcher} {ba bb : Nat}
    (ha : CapGrowth a ba) (hb : CapGrowth b bb) : CapGrowth (mSeq a b) (ba + bb) := by
  intro k t caps r h
  unfold mSeq at h
  obtain ⟨t2, caps2, h2, hl2⟩ := ha (b k) t caps r h
  obtain ⟨t3, caps3, h3, hl3⟩ := hb k t2 caps2 r h2
  exact ⟨t3, caps3, h3, by omega⟩

/-- Helper: alternation is bounded by a common bound of its alternatives. -/
theorem capGrowth_mAltAux {b : Nat} (k : MCont) (t : List Char)
    (caps : List (List Char)) (ms : List Matcher) (h : ∀ m ∈ ms, CapGrowth m b) :
    ∀ r, mAltAux k t caps ms = some r →
      ∃ t2 caps2, k t2 caps2 = some r ∧ caps2.length ≤ caps.length + b := by
  induction ms with
  | nil => intro r h2; exact absurd h2 (by simp [mAltAux])
  | cons m rest ih =>
    intro r h2
    unfold mAltAux at h2
    cases hm : m k t caps with
    | some r2 =>
      rw [hm] at h2
      exact h m (List.mem_cons_self m rest) k t caps r (hm.trans h2)
    | none =>
      rw [hm] at h2
      exact ih (fun m2 hm2 => h m2 (List.mem_cons_of_mem m hm2)) r h2

/-- Helper: alternation is bounded by a common bound of its alternatives. -/
theorem capGrowth_mAlt {b : Nat} (ms : List Matcher) (h : ∀ m ∈ ms, CapGrowth m b) :
    CapGrowth (mAlt ms) b := by
  intro k t caps r h2
  exact capGrowth_mAltAux k t caps ms h r h2

/-- Helper: an optional pattern keeps its bound. -/
theorem capGrowth_mOpt {a : Matcher} {b : Nat} (ha : CapGrowth a b) :
    CapGrowth (mOpt a) b := by
  intro k t caps r h
  unfold mOpt at h
  cases hm : a k t caps with
  | some r2 => rw [hm] at h; exact ha k t caps r (hm.trans h)
  | none => rw [hm] at h; exact ⟨t, caps, h, Nat.le_add_right _ _⟩

/-- Helper: star backtracking calls the continuation with unchanged captures. -/
theorem starAux_growth (k : MCont) (t : List Char) (caps : List (List Char)) :
    ∀ (j : Nat) (r : List Char × List (List Char)),
      starAux k t caps j = some r → ∃ t2, k t2 caps = some r := by
  intro j
  induction j with
  | zero => intro r h; exact ⟨t, h⟩
  | succ j ih =>
    intro r h
    unfold starAux at h
    cases hm : k (t.drop (j + 1)) caps with
    | some r2 => rw [hm] at h; exact ⟨t.drop (j + 1), hm.trans h⟩
    | none => rw [hm] at h; exact ih r h

/-- Helper: a character-class star adds no capture. -/
theorem capGrowth_mStarCls (cls : Char → Bool) : CapGrowth (mStarCls cls) 0 := by
  intro k t caps r h
  obtain ⟨t2, h2⟩ := starAux_growth k t caps (countLead cls t) r h
  exact ⟨t2, caps, h2, Nat.le_refl _⟩

/-- Helper: digit backtracking calls the continuation with unchanged captures. -/
theorem digitsAux_growth (k : MCont) (t : List Char) (caps : List (List Char)) :
    ∀ (j : Nat) (r : List Char × List (List Char)),
      digitsAux k t caps j = some r → ∃ t2, k t2 caps = some r := by
  intro j
  induction j with
  | zero => intro r h; exact absurd h (by simp [digitsAux])
  | succ j ih =>
    intro r h
    unfold digitsAux at h
    cases hm : k (t.drop (j + 1)) caps with
    | some r2 => rw [hm] at h; exact ⟨t.drop (j + 1), hm.trans h⟩
    | none => rw [hm] at h; exact ih r h

/-- Helper: `\d+` adds no capture. -/
theorem capGrowth_mDigits : CapGrowth mDigits 0 := by
  intro k t caps r h
  obtain ⟨t2, h2⟩ := digitsAux_growth k t caps (countLead pyDigit t) r h
  exact ⟨t2, caps, h2, Nat.le_refl _⟩

/-- Helper: a capturing group adds one capture on top of its body's bound. -/
theorem capGrowth_mCapture {a : Matcher} {b : Nat} (ha : CapGrowth a b) :
    CapGrowth (mCapture a) (b + 1) := by
  intro k t caps r h
  unfold mCapture at h
  obtain ⟨t2, caps2, h2, hl⟩ := ha _ t caps r h
  refine ⟨t2, caps2 ++ [t.take (t.length - t2.length)], h2, ?_⟩
  simp only [List.length_append, List.length_singleton]
  omega

/-- Helper: n-fold repetition multiplies the bound. -/
theorem capGrowth_mRep {a : Matcher} {b : Nat} (ha : CapGrowth a b) :
    ∀ n, CapGrowth (mRep a n) (b * n) := by
  intro n
  induction n with
  | zero => exact capGrowth_mono capGrowth_mEps (Nat.zero_le _)
  | succ n ih =>
    exact capGrowth_mono (capGrowth_mSeq ha ih) (by rw [Nat.mul_succ]; omega)

/-- Helper: every case-insensitive literal in a mapped list adds no capture. -/
theorem capGrowth_mLits (pats : List (List Char)) :
    ∀ m ∈ pats.map mLitCI, CapGrowth m 0 := by
  intro m hm
  obtain ⟨pat, _, rfl⟩ := List.mem_map.mp hm
  exact capGrowth_mLitCI pat

/-- Helper: the trigger pattern captures nothing. -/
theorem capGrowth_mTrigger : CapGrowth mTrigger 0 := by
  have h1 : CapGrowth (mAlt (TICKET_VERBS.map mLitCI)) 0 :=
    capGrowth_mAlt _ (capGrowth_mLits _)
  have h2 : CapGrowth (mAlt [mLitCI ("ticket".toList), mLitCI ("bug".toList)]) 0 := by
    apply capGrowth_mAlt
    intro m hm
    simp only [List.mem_cons, List.not_mem_nil, or_false] at hm
    rcases hm with rfl | rfl
    · exact capGrowth_mLitCI _
    · exact capGrowth_mLitCI _
  exact capGrowth_mSeq h1
    (capGrowth_mSeq (capGrowth_mStarCls _)
      (capGrowth_mSeq (capGrowth_mOpt h2)
        (capGrowth_mSeq (capGrowth_mStarCls _) (capGrowth_mStarCls _))))

/-- Helper: the join pattern captures nothing. -/
theorem capGrowth_mJoin : CapGrowth mJoin 0 := by
  have h1 : CapGrowth
      (mAlt [mLitCI (",".toList), mLitCI ("and".toList), mLitCI (", and".toList)]) 0 := by
    apply capGrowth_mAlt
    intro m hm
    simp only [List.mem_cons, List.not_mem_nil, or_false] at hm
    rcases hm with rfl | rfl | rfl
    · exact capGrowth_mLitCI _
    · exact capGrowth_mLitCI _
    · exact capGrowth_mLitCI _
  exact capGrowth_mSeq (capGrowth_mStarCls _) (capGrowth_mSeq h1 (capGrowth_mStarCls _))

/-- Helper: one ticket id captures at most one group. -/
theorem capGrowth_mTicketId (prefixes : List (List Char)) :
    CapGrowth (mTicketId prefixes) 1 :=
  capGrowth_mSeq (capGrowth_mOpt (capGrowth_mLitCI _))
    (capGrowth_mCapture (capGrowth_mSeq (capGrowth_mAlt _ (capGrowth_mLits _)) capGrowth_mDigits))

/-- Helper: the full ticket pattern captures at most eleven ids. -/
theorem capGrowth_ticketPattern (prefixes : List (List Char)) :
    CapGrowth (ticketPattern prefixes) 11 :=
  capGrowth_mSeq capGrowth_mTrigger
    (capGrowth_mSeq (capGrowth_mTicketId prefixes)
      (capGrowth_mRep (capGrowth_mOpt (capGrowth_mSeq capGrowth_mJoin
        (capGrowth_mTicketId prefixes))) 10))

set_option maxHeartbeats 1000000 in
/-- C5 (amended): ticket-reference matching recognizes a chain of at most
ELEVEN consecutive ticket references per trigger (the mandatory first id
plus the ten optional comma/`and` continuations); ids beyond the eleventh
are not matched as part of the same trigger: every match of the shared
pattern carries at most eleven captures, and on a trigger followed by twelve
ids exactly the first eleven are extracted. -/
theorem c5_amended_chain_bound :
    (∀ (prefixes : List (List Char)) (t : List Char) (r : List Char × List (List Char)),
       pyMatch (ticketPattern prefixes) t = some r → r.2.length ≤ 11)
    ∧ find_ticket_refs defaultPrefixes
        (("fixes 1, 2, 3, 4, 5, 6, 7, 8, 9, 10, 11, 12").toList) =
      [("1".toList), ("10".toList), ("11".toList), ("2".toList), ("3".toList), ("4".toList),
       ("5".toList), ("6".toList), ("7".toList), ("8".toList), ("9".toList)] := by
  constructor
  · intro prefixes t r h
    unfold pyMatch at h
    obtain ⟨t2, caps2, h2, hl⟩ := capGrowth_ticketPattern prefixes _ t [] r h
    have hr : (t2, caps2) = r := Option.some.inj h2
    rw [← hr]
    simpa using hl
  · rfl

/-- C5 witness: a concrete successful match (one trigger, one id) whose
capture count the bound of `c5_amended_chain_bound` covers. -/
theorem c5_amended_chain_bound_witness :
    pyMatch (ticketPattern defaultPrefixes) (("fixes 1").toList) =
      some (([] : List Char), [("1".toList)])
    ∧ (([] : List Char), [("1".toList)]).2.length ≤ 11 :=
  ⟨rfl, c5_amended_chain_bound.1 defaultPrefixes (("fixes 1").toList)
    (([] : List Char), [("1".toList)]) rfl⟩

/-- Helper: the matcher-loop draft updates never create review requests. -/
theorem cUpdLoop_creations (cs : List Changeset) :
    ∀ (pairs : List (RevReq × Nat)) (prev : Nat) (s : SState),
    (cUpdLoop cs pairs prev s).creations = s.creations := by
  intro pairs
  induction pairs with
  | nil => intro prev s; rfl
  | cons pr rest ih =>
    intro prev s
    obtain ⟨r, idx⟩ := pr
    simp only [cUpdLoop]
    rw [ih]
    split <;> rfl

/-- Helper: a draft update never creates a review request. -/
theorem update_draft_creations (s : SState) (rid : Nat) (cs : List Changeset) :
    (update_draft s rid cs).creations = s.creations := rfl

/-- Helper: `cFinish` accepts and closes when every approval holds. -/
theorem cFinish_all_true (pairs : List (RevReq × Nat)) (approvals : List Bool) (s : SState)
    (h : approvals.all id = true) :
    cFinish pairs approvals s =
      (HOOK_SUCCESS,
       { s with reqs := s.reqs.map (fun q =>
           if pairs.any (fun p => p.1.id == q.id) then close_request q else q) }) := by
  simp [cFinish, h]

/-- Helper: `cFinish` rejects when some approval fails. -/
theorem cFinish_not_all (pairs : List (RevReq × Nat)) (approvals : List Bool) (s : SState)
    (h : approvals.all id = false) : cFinish pairs approvals s = (HOOK_FAILED, s) := by
  simp [cFinish, h]

/-- Helper: setting the last position of a nonempty list to false leaves a
false element in the list. -/
theorem mem_set_last_false : ∀ (l : List Bool), l ≠ [] → false ∈ l.set (l.length - 1) false := by
  intro l
  induction l with
  | nil => intro h; exact absurd rfl h
  | cons a m ih =>
    intro _
    cases m with
    | nil => simp
    | cons b k => exact List.mem_cons_of_mem a (ih (by simp))

/-- Helper: setting the last entry of a nonempty boolean list to false
falsifies the conjunction of the list. -/
theorem all_id_set_last_false (l : List Bool) (hne : l ≠ []) :
    (l.set (l.length - 1) false).all id = false := by
  cases hall : (l.set (l.length - 1) false).all id
  · rfl
  · exfalso
    have := List.all_eq_true.mp hall false (mem_set_last_false l hne)
    simp at this

/-- Helper (C3 accept path): with at least one matched request, all matched
requests approved by others, `allow_merge` on, and the changesets after the
last match all merges, the contrib orchestrator accepts the push and creates
no review request. -/
theorem cphb_accept (conf : Option String) (pusher : Nat) (cs : List Changeset) (s : SState)
    (hne : find_review_requests s.reqs cs ≠ [])
    (happ : ∀ p ∈ find_review_requests s.reqs cs, approved_by_others p.1 = true)
    (hconf : configbool conf false = true)
    (hmerge : (cs.drop (cPrevIdx (find_review_requests s.reqs cs))).all
      (fun c => c.isMerge) = true) :
    ∃ s2, c_push_review_hook_base conf pusher cs s = some (HOOK_SUCCESS, s2)
      ∧ s2.creations = s.creations := by
  have happB : ∀ b ∈ (find_review_requests s.reqs cs).map (fun p => approved_by_others p.1),
      b = true := by
    intro b hb
    obtain ⟨p, hp, rfl⟩ := List.mem_map.mp hb
    exact happ p hp
  have hisap : is_approved conf (cs.drop (cPrevIdx (find_review_requests s.reqs cs))) = true := by
    unfold is_approved
    cases hemp : (cs.drop (cPrevIdx (find_review_requests s.reqs cs))).isEmpty
    · simp [hemp, hconf, hmerge]
    · simp [hemp]
  have hlastT : (((find_review_requests s.reqs cs).map
      (fun p => approved_by_others p.1)).getLast?).getD true = true := by
    cases hl : ((find_review_requests s.reqs cs).map
        (fun p => approved_by_others p.1)).getLast? with
    | none => rfl
    | some b =>
      have hbm := List.mem_of_getLast?_eq_some hl
      simpa using happB b hbm
  have hpe : (find_review_requests s.reqs cs).isEmpty = false := by
    cases hp : find_review_requests s.reqs cs with
    | nil => exact absurd hp hne
    | cons a l => rfl
  have hall2 : (((find_review_requests s.reqs cs).map (fun p => approved_by_others p.1)).set
      (((find_review_requests s.reqs cs).map (fun p => approved_by_others p.1)).length - 1)
      (true && true)).all id = true := by
    apply List.all_eq_true.mpr
    intro b hb
    rcases List.mem_or_eq_of_mem_set hb with hb2 | hb2
    · exact happB b hb2
    · simp [hb2]
  unfold c_push_review_hook_base
  simp only [hisap, hlastT, hpe, Bool.not_true, Bool.and_false, Bool.false_eq_true,
    if_false, ite_false]
  rw [cFinish_all_true _ _ _ hall2]
  refine ⟨_, rfl, ?_⟩
  simp [update_draft_creations, cUpdLoop_creations]

/-- Helper (C3 crash path): with no matched request and an auto-approved
(empty or all-merge) push, the contrib orchestrator crashes on the unbound
loop variable instead of accepting. -/
theorem cphb_crash (conf : Option String) (pusher : Nat) (cs : List Changeset) (s : SState)
    (hp : find_review_requests s.reqs cs = [])
    (hap : is_approved conf cs = true) :
    c_push_review_hook_base conf pusher cs s = none := by
  unfold c_push_review_hook_base
  simp [hp, hap, cUpdLoop, cPrevIdx]

/-- Helper (C3 reject path): with `allow_merge` disabled and a nonempty span
of changesets after the last match, the contrib orchestrator never accepts:
it returns `HOOK_FAILED`. -/
theorem cphb_reject_nonmerge (conf : Option String) (pusher : Nat)
    (cs : List Changeset) (s : SState)
    (hconf : configbool conf false = false)
    (hne2 : cs.drop (cPrevIdx (find_review_requests s.reqs cs)) ≠ []) :
    ∃ s2, c_push_review_hook_base conf pusher cs s = some (HOOK_FAILED, s2) := by
  have hemp : (cs.drop (cPrevIdx (find_review_requests s.reqs cs))).isEmpty = false := by
    cases h2 : cs.drop (cPrevIdx (find_review_requests s.reqs cs)) with
    | nil => exact absurd h2 hne2
    | cons a l => rfl
  have hisap : is_approved conf (cs.drop (cPrevIdx (find_review_requests s.reqs cs))) = false := by
    unfold is_approved
    simp [hemp, hconf]
  have happfalse : ((((find_review_requests s.reqs cs).map
      (fun p => approved_by_others p.1)) ++ [false]).all id) = false := by
    simp [List.all_append]
  cases hl : ((find_review_requests s.reqs cs).map (fun p => approved_by_others p.1)).getLast? with
  | none =>
    unfold c_push_review_hook_base
    simp only [hl, hemp, hisap, Option.getD_none, Bool.not_false, Bool.true_and, Bool.and_true,
      Bool.not_true, Bool.and_false]
    rw [cFinish_not_all _ _ _ happfalse]
    exact ⟨_, rfl⟩
  | some b =>
    cases b with
    | true =>
      unfold c_push_review_hook_base
      simp only [hl, hemp, hisap, Option.getD_some, Bool.not_false, Bool.true_and, Bool.and_true,
        Bool.not_true, Bool.and_false]
      rw [cFinish_not_all _ _ _ happfalse]
      exact ⟨_, rfl⟩
    | false =>
      have hane : ((find_review_requests s.reqs cs).map
          (fun p => approved_by_others p.1)) ≠ [] := by
        intro h0
        rw [h0] at hl
        simp at hl
      have hpe : (find_review_requests s.reqs cs).isEmpty = false := by
        cases hp2 : find_review_requests s.reqs cs with
        | nil => rw [hp2] at hl; simp at hl
        | cons a l => rfl
      have hset : ((((find_review_requests s.reqs cs).map
          (fun p => approved_by_others p.1)).set
          ((((find_review_requests s.reqs cs).map (fun p => approved_by_others p.1))).length - 1)
          (false && is_approved conf (cs.drop (cPrevIdx (find_review_requests s.reqs cs))))).all
            id) = false := by
        rw [Bool.false_and]
        exact all_id_set_last_false _ hane
      unfold c_push_review_hook_base
      simp only [hl, hemp, hisap, Option.getD_some, Bool.false_and, Bool.and_self,
        Bool.false_eq_true, if_false, ite_false, hpe]
      rw [cFinish_not_all _ _ _ (by simpa using hset)]
      exact ⟨_, rfl⟩

/-- C3 (amended): the contrib orchestrator's merge auto-approval, as the
code actually behaves.  (1) When at least one review request matches, every
matched request is approved by someone else, `allow_merge` is enabled, and
the changesets after the last match are all merges, the push is ACCEPTED
with no review request created.  (2) When NO review request matches and the
push is auto-approved (empty, or all merges with `allow_merge`), the hook
crashes on an unbound variable instead of accepting.  (3) With `allow_merge`
disabled, a nonempty span of changesets after the last match -- merges or
not -- never yields acceptance: the hook returns `HOOK_FAILED`. -/
theorem c3_amended_merge_approval :
    (∀ (conf : Option String) (pusher : Nat) (cs : List Changeset) (s : SState),
       find_review_requests s.reqs cs ≠ [] →
       (∀ p ∈ find_review_requests s.reqs cs, approved_by_others p.1 = true) →
       configbool conf false = true →
       (cs.drop (cPrevIdx (find_review_requests s.reqs cs))).all (fun c => c.isMerge) = true →
       ∃ s2, c_push_review_hook_base conf pusher cs s = some (HOOK_SUCCESS, s2)
         ∧ s2.creations = s.creations)
    ∧ (∀ (conf : Option String) (pusher : Nat) (cs : List Changeset) (s : SState),
       find_review_requests s.reqs cs = [] →
       is_approved conf cs = true →
       c_push_review_hook_base conf pusher cs s = none)
    ∧ (∀ (conf : Option String) (pusher : Nat) (cs : List Changeset) (s : SState),
       configbool conf false = false →
       cs.drop (cPrevIdx (find_review_requests s.reqs cs)) ≠ [] →
       ∃ s2, c_push_review_hook_base conf pusher cs s = some (HOOK_FAILED, s2)) :=
  ⟨cphb_accept, cphb_crash, cphb_reject_nonmerge⟩

/-- C3 witness: one exactly-matched approved request followed by a trailing
merge changeset, with `allow_merge = "1"`: the push is accepted and nothing
is created. -/
theorem c3_amended_merge_approval_witness :
    (find_review_requests c3ws.reqs c3wctxs ≠ []
     ∧ configbool (some ("1")) false = true)
    ∧ ∃ s2, c_push_review_hook_base (some ("1")) 7 c3wctxs c3ws = some (HOOK_SUCCESS, s2)
        ∧ s2.creations = c3ws.creations :=
  ⟨⟨by decide, by decide⟩,
   c3_amended_merge_approval.1 (some ("1")) 7 c3wctxs c3ws
     (by decide) (by decide) (by decide) (by decide)⟩
